import Mathlib

/-!
Verification of the caddy-saml middleware (`middleware.go`) against its
natural-language specification.

The development shallowly embeds the middleware's data model and operations:
  * the JWT codec used via the `dgrijalva/jwt-go` library (HMAC is idealised
    as a collision-free MAC: a signature is the triple of key, declared
    algorithm and signed claims, so two signatures agree exactly when key,
    algorithm and claims all agree);
  * the client-held relay-state store (`ClientState`) and session-token
    accessor (`ClientToken`), which live in repository files outside
    `middleware.go` and are modelled from the spec (§4.2);
  * the middleware operations `getPossibleRequestIDs`, `Authorize`,
    `RequireAccount`, `GetAuthorizationToken` and the `ServeHTTP` dispatcher.

Go panics (the unchecked type assertions `claims["id"].(string)` and
`claims["uri"].(string)`) are modelled by an `Option` result: `none` is a
panic.  Side effects (cookie mutations, response writes, calls into the
external SAML protocol engine) are explicit data in the results.
-/

namespace Saml

/-- JSON values as they appear in a decoded JWT claims map.  Only strings and
integers are needed by the middleware. -/
inductive JSONValue where
  | str (s : String)
  | num (n : Int)
  deriving DecidableEq

/-- Claims of a relay-state JWT: `jwt.MapClaims`, a string-keyed map, embedded
as an association list (first binding wins, as the middleware never writes a
key twice). -/
abbrev MapClaims := List (String × JSONValue)

/-- Lookup in a claims map; `none` models the Go map returning `nil` for an
absent key. -/
def mapLookup : MapClaims → String → Option JSONValue
  | [], _ => none
  | (k, v) :: rest, key => if k = key then some v else mapLookup rest key

/-- The Go type assertion `x.(string)` on an `interface\x7b\x7d` value: succeeds
exactly when the value is present and is a string; `none` models a panic at
the assertion. -/
def asString : Option JSONValue → Option String
  | some (.str s) => some s
  | _ => none

/-- Validation error flags of the jwt-go library (`ValidationError.Errors`).
A parse succeeds exactly when every flag is clear. -/
structure ErrFlags where
  malformed : Bool := false
  unverifiable : Bool := false
  signatureInvalid : Bool := false
  expired : Bool := false
  issuedAt : Bool := false
  notValidYet : Bool := false
  deriving DecidableEq

/-- No validation error: every flag clear. -/
def noErr : ErrFlags := {}

/-- A parsed JWT over claims type `C`: the declared algorithm, the claims and
the signature.  HMAC is idealised as collision-free, so the signature is the
triple (key, algorithm, claims) it was computed over. -/
structure JWT (C : Type) where
  alg : String
  claims : C
  sig : Nat × String × C
  deriving DecidableEq

/-- Signing key material: `x509.MarshalPKCS1PrivateKey(sp.Key)`, a
deterministic function of the service's private key, abstracted to a `Nat`. -/
abbrev Key := Nat

/-- Idealised HMAC: the MAC is the (key, algorithm, claims) triple itself. -/
def mac {C : Type} (key : Key) (alg : String) (c : C) : Nat × String × C :=
  (key, alg, c)

/-- Produce a signed token, as `SignedString` does. -/
def jwtSign {C : Type} (key : Key) (alg : String) (c : C) : JWT C :=
  { alg := alg, claims := c, sig := mac key alg c }

/-- Signature verification: the stored MAC matches a recomputation under the
given key and the token's declared algorithm. -/
def sigOK {C : Type} [DecidableEq C] (key : Key) (tok : JWT C) : Bool :=
  tok.sig = mac key tok.alg tok.claims

/-- The HMAC family of jwt-go signing methods: the algorithms that verify
against byte-slice key material.  Any other declared algorithm is unavailable
to the middleware's key type. -/
def hmacAlgs : List String := ["HS256", "HS384", "HS512"]

/-- Claims validation then signature check, as in jwt-go's `Parser.Parse`:
claim flags are computed first, a failing signature adds the
`signatureInvalid` flag, and the parse succeeds iff no flag is set. -/
def jwtParseVerify {C : Type} [DecidableEq C] (key : Key)
    (claimsValid : C → Int → ErrFlags) (now : Int) (tok : JWT C) :
    Except ErrFlags C :=
  let flags := claimsValid tok.claims now
  let flags := if sigOK key tok then flags else { flags with signatureInvalid := true }
  if flags = noErr then .ok tok.claims else .error flags

/-- jwt-go's `Parser.Parse`: reject an unavailable algorithm; when
`validMethods` is set (as in the relay-state parsers) reject any algorithm
outside it with `signatureInvalid`; otherwise validate claims and signature. -/
def jwtParse {C : Type} [DecidableEq C] (validMethods : Option (List String))
    (key : Key) (claimsValid : C → Int → ErrFlags) (now : Int) (tok : JWT C) :
    Except ErrFlags C :=
  if tok.alg ∈ hmacAlgs then
    match validMethods with
    | some vm =>
        if tok.alg ∈ vm then jwtParseVerify key claimsValid now tok
        else .error { signatureInvalid := true }
    | none => jwtParseVerify key claimsValid now tok
  else .error { unverifiable := true }

/-- jwt-go's `StandardClaims` (audience, expiry, id, issued-at, issuer,
not-before, subject), zero values meaning "absent". -/
structure StandardClaims where
  audience : String := ""
  expiresAt : Int := 0
  id : String := ""
  issuedAt : Int := 0
  issuer : String := ""
  notBefore : Int := 0
  subject : String := ""
  deriving DecidableEq

/-- jwt-go's `StandardClaims.Valid` as error flags: a zero field is skipped,
`expired` when now is past `expiresAt`, `issuedAt` and `notValidYet` when now
is before `issuedAt` resp. `notBefore`. -/
def StandardClaims.validFlags (c : StandardClaims) (now : Int) : ErrFlags :=
  { expired := c.expiresAt != 0 && decide (c.expiresAt < now)
    issuedAt := c.issuedAt != 0 && decide (now < c.issuedAt)
    notValidYet := c.notBefore != 0 && decide (now < c.notBefore) }

/-- Numeric view of an optional claim value, as jwt-go's `MapClaims`
verification helpers take it (non-numeric values count as absent). -/
def jnum : Option JSONValue → Option Int
  | some (.num n) => some n
  | _ => none

/-- jwt-go's `MapClaims.Valid` as error flags over the `exp`, `iat` and `nbf`
claims; an absent, non-numeric or zero claim is skipped. -/
def mapClaimsValid (m : MapClaims) (now : Int) : ErrFlags :=
  { expired :=
      match jnum (mapLookup m "exp") with
      | some e => e != 0 && decide (e < now)
      | none => false
    issuedAt :=
      match jnum (mapLookup m "iat") with
      | some i => i != 0 && decide (now < i)
      | none => false
    notValidYet :=
      match jnum (mapLookup m "nbf") with
      | some n => n != 0 && decide (now < n)
      | none => false }

/-- Modelled from the spec: the repository's `AuthorizationToken` type (its
definition lives outside `middleware.go`) — the session token's claim set,
i.e. embedded jwt-go `StandardClaims` plus the attribute mapping from
attribute name to ordered list of values (§3 SessionToken). -/
structure AuthorizationToken where
  attributes : List (String × List String) := []
  standardClaims : StandardClaims := {}
  deriving DecidableEq

/-- Claims validity of an `AuthorizationToken`, promoted from its embedded
`StandardClaims` as in Go. -/
def AuthorizationToken.validFlags (c : AuthorizationToken) (now : Int) : ErrFlags :=
  c.standardClaims.validFlags now

/-- Go's `m[k] = append(m[k], v)` on a `map[string][]string`, embedded on an
association list. -/
def appendAttr : List (String × List String) → String → String → List (String × List String)
  | [], k, v => [(k, [v])]
  | (k', vs) :: rest, k, v =>
      if k' = k then (k', vs ++ [v]) :: rest else (k', vs) :: appendAttr rest k v

/-- Go's read `m[k]` on a `map[string][]string`: the nil slice for an absent
key. -/
def lookupAttr : List (String × List String) → String → List String
  | [], _ => []
  | (k', vs) :: rest, k => if k' = k then vs else lookupAttr rest k

/-- A value held in the client state: either a wire string that parses as a
JWT, or garbage that the JWT parser rejects as malformed. -/
inductive StateValue where
  | tok (t : JWT MapClaims)
  | garbage (s : String)
  deriving DecidableEq

/-- Parse one relay-state value exactly as `getPossibleRequestIDs` and
`Authorize` do: a `jwt.Parser` with `ValidMethods` fixed to the single
signing method HS256, keyed by the service key. -/
def parseStateValue (key : Key) (now : Int) : StateValue → Except ErrFlags MapClaims
  | .garbage _ => .error { malformed := true }
  | .tok t => jwtParse (some ["HS256"]) key mapClaimsValid now t

/-- Modelled from the spec: the repository's `ClientState` cookie store (its
implementation lives outside `middleware.go`), a client-held map from relay
identifier to stored value (§4.2). -/
abbrev ClientState := List (String × StateValue)

/-- Modelled from the spec: `ClientState.GetState` — the value stored under a
relay identifier, `none` standing for the empty string returned when the
relay identifier has no cookie (§4.2 getOne). -/
def getState : ClientState → String → Option StateValue
  | [], _ => none
  | (k, v) :: rest, relayID => if k = relayID then some v else getState rest relayID

/-- Modelled from the spec: `ClientState.GetStates` — every outstanding
relay-state value present in the request (§4.2 getAll). -/
def getStates (cs : ClientState) : List StateValue :=
  cs.map (fun p => p.2)

/-- Modelled from the spec: `ClientState.SetState` (§4.2 put). -/
def setState (cs : ClientState) (relayID : String) (v : StateValue) : ClientState :=
  (relayID, v) :: cs

/-- Modelled from the spec: `ClientState.DeleteState` — remove the value
stored under the relay identifier (§4.2 delete). -/
def deleteState (cs : ClientState) (relayID : String) : ClientState :=
  cs.filter (fun p => p.1 != relayID)

/-- A SAML attribute value (`saml.AttributeValue`), reduced to the `Value`
field the middleware reads. -/
structure AttributeValue where
  value : String
  deriving DecidableEq

/-- A SAML attribute (`saml.Attribute`): technical name, optional friendly
name and its values. -/
structure SamlAttribute where
  friendlyName : String := ""
  name : String := ""
  values : List AttributeValue := []
  deriving DecidableEq

/-- A SAML attribute statement (`saml.AttributeStatement`). -/
structure AttributeStatement where
  attributes : List SamlAttribute := []
  deriving DecidableEq

/-- A SAML name identifier (`saml.NameID`), reduced to its `Value`. -/
structure NameID where
  value : String
  deriving DecidableEq

/-- A SAML subject (`saml.Subject`), with an optional name identifier. -/
structure SamlSubject where
  nameID : Option NameID := none
  deriving DecidableEq

/-- A validated SAML assertion as the middleware consumes it: optional
subject and the attribute statements. -/
structure Assertion where
  subject : Option SamlSubject := none
  attributeStatements : List AttributeStatement := []
  deriving DecidableEq

/-- The authentication request returned by the external protocol engine's
`MakeAuthenticationRequest`, reduced to the `ID` the middleware reads. -/
structure AuthnRequest where
  id : String
  deriving DecidableEq

/-- Modelled from the spec: a path-prefix rule (the value side of
`SAMLPlugin.Map`; `isAuthorized` and `dumpAttributes` live outside
`middleware.go`): required attribute/value pairs and whether to dump the
attribute set instead of forwarding (§4.6). -/
structure Rule where
  requires : List (String × String) := []
  dump : Bool := false
  deriving DecidableEq

/-- The configuration the middleware reads from `saml.ServiceProvider`: the
marshalled private key, entity ID, endpoint paths and the SSO binding
locations the metadata advertises. -/
structure ServiceProvider where
  key : Key
  entityID : String
  metadataPath : String
  acsPath : String
  ssoRedirectLocation : String := ""
  ssoPostLocation : String := ""
  deriving DecidableEq

/-- The `SAMLPlugin` middleware state: service provider configuration,
whether IdP-initiated flows are allowed, session-token max age (seconds) and
the path-prefix rule map (embedded as a list, fixing one iteration order of
the Go map). -/
structure SAMLPlugin where
  serviceProvider : ServiceProvider
  allowIDPInitiated : Bool := false
  tokenMaxAge : Int := 0
  map : List (String × Rule) := []
  deriving DecidableEq

/-- Body of `getPossibleRequestIDs`'s loop over the client's relay-state
values: skip values the HS256-restricted parser rejects, and read the `id`
claim of each accepted one with the unchecked string assertion — `none`
models the panic when that claim is absent or not a string. -/
def collectRequestIDs (key : Key) (now : Int) : List StateValue → Option (List String)
  | [] => some []
  | v :: rest =>
    match parseStateValue key now v with
    | .error _ => collectRequestIDs key now rest
    | .ok claims =>
      match asString (mapLookup claims "id") with
      | none => none
      | some i => (collectRequestIDs key now rest).map (fun ids => i :: ids)

/-- `getPossibleRequestIDs`: the request IDs of every verifying relay-state
value the client presents, plus the empty string when IdP-initiated flows
are allowed; `none` models a panic on a verifying value without a string
`id` claim. -/
def getPossibleRequestIDs (s : SAMLPlugin) (now : Int) (states : List StateValue) :
    Option (List String) :=
  (collectRequestIDs s.serviceProvider.key now states).map
    (fun ids => if s.allowIDPInitiated then ids ++ [""] else ids)

/-- Body of `Authorize`'s attribute loop: the mapping is reset to empty at
each attribute statement, then the statement's attributes are appended,
keyed by friendly name when nonempty and technical name otherwise. -/
def buildAttributes (stmts : List AttributeStatement) : List (String × List String) :=
  stmts.foldl
    (fun _ stmt =>
      stmt.attributes.foldl
        (fun m attr =>
          let claimName := if attr.friendlyName = "" then attr.name else attr.friendlyName
          attr.values.foldl (fun m2 v => appendAttr m2 claimName v.value) m)
        [])
    []

/-- The session claims `Authorize` constructs: audience is the service's
entity ID, the validity window runs from now to now plus the configured max
age, the subject is the assertion's name identifier when present, and the
attributes are flattened by `buildAttributes`. -/
def buildSessionClaims (s : SAMLPlugin) (assertion : Assertion) (now : Int) :
    AuthorizationToken :=
  { standardClaims :=
      { audience := s.serviceProvider.entityID
        issuedAt := now
        expiresAt := now + s.tokenMaxAge
        notBefore := now
        subject :=
          match assertion.subject with
          | some sub =>
            match sub.nameID with
            | some nid => nid.value
            | none => ""
          | none => "" }
    attributes := buildAttributes assertion.attributeStatements }

/-- Outcome of the relay-state phase of `Authorize` (its first half). -/
inductive RelayPhase where
  | forbidden
  | panicked
  | ok (redirectURI : String) (cs : ClientState)
  deriving DecidableEq

/-- Relay-state phase of `Authorize`: an empty `RelayState` parameter keeps
the root redirect target and touches nothing; otherwise the stored value is
looked up (Forbidden when absent), parsed with the HS256-restricted parser
(Forbidden when invalid), its `uri` claim read with the unchecked string
assertion (`panicked` when absent or not a string), and the consumed state
deleted. -/
def authorizeRelayPhase (key : Key) (cs : ClientState) (relayState : String)
    (now : Int) : RelayPhase :=
  if relayState = "" then .ok "/" cs
  else
    match getState cs relayState with
    | none => .forbidden
    | some stateValue =>
      match parseStateValue key now stateValue with
      | .error _ => .forbidden
      | .ok claims =>
        match asString (mapLookup claims "uri") with
        | none => .panicked
        | some uri => .ok uri (deleteState cs relayState)

/-- The response `Authorize` produces. -/
inductive AResponse where
  | forbidden
  | redirect (uri : String)
  deriving DecidableEq

/-- Observable outcome of `Authorize`: the response written, the client
state after any deletion, and the session token set, if any. -/
structure AuthorizeOutcome where
  response : AResponse
  clientState : ClientState
  setToken : Option (JWT AuthorizationToken)
  deriving DecidableEq

/-- `Authorize`: consume the relay state addressed by the `RelayState`
parameter, then sign the session claims with HS256 under the service key,
set the session token and redirect to the recovered original URI; `none`
models a panic. -/
def Authorize (s : SAMLPlugin) (cs : ClientState) (relayState : String)
    (assertion : Assertion) (now : Int) : Option AuthorizeOutcome :=
  match authorizeRelayPhase s.serviceProvider.key cs relayState now with
  | .panicked => none
  | .forbidden => some { response := .forbidden, clientState := cs, setToken := none }
  | .ok uri cs' =>
    some { response := .redirect uri
           clientState := cs'
           setToken :=
             some (jwtSign s.serviceProvider.key "HS256" (buildSessionClaims s assertion now)) }

/-- An observable side effect of `RequireAccount`, in order of occurrence:
a call into the external protocol engine, a relay-state cookie write, or a
write to the HTTP response. -/
inductive Effect where
  | makeAuthnRequest (dest : String)
  | stateWrite (relayID : String) (value : StateValue)
  | responseWrite
  deriving DecidableEq

/-- Terminal outcome of `RequireAccount`. -/
inductive RequireAccountResult where
  | panicked (msg : String)
  | internalError (msg : String)
  | redirectToIdP (req : AuthnRequest) (relayState : String)
  | postToIdP (req : AuthnRequest) (relayState : String)
  deriving DecidableEq

/-- The SSO transport bindings. -/
inductive Binding where
  | redirectBinding
  | postBinding
  deriving DecidableEq

/-- `RequireAccount`: panic on the ACS path; otherwise pick the redirect
binding's SSO location, falling back to the post binding when it is empty;
build the authentication request through the external engine (a parameter,
since the engine is an external collaborator); sign the relay-state claims
(`id` and `uri`) with HS256 under the service key; store them under the
fresh relay identifier (a parameter standing for the 42 random base64
bytes); and emit the redirect or the form-post response.  The effect list
records, in order, every engine call, cookie write and response write. -/
def RequireAccount (s : SAMLPlugin) (path : String) (fullURL : String)
    (relayRandom : String) (engine : String → Except String AuthnRequest) :
    List Effect × RequireAccountResult :=
  if path = s.serviceProvider.acsPath then
    ([], .panicked "dont wrap SAMLPlugin with RequireAccount")
  else
    let binding :=
      if s.serviceProvider.ssoRedirectLocation = "" then Binding.postBinding
      else Binding.redirectBinding
    let bindingLocation :=
      if s.serviceProvider.ssoRedirectLocation = "" then s.serviceProvider.ssoPostLocation
      else s.serviceProvider.ssoRedirectLocation
    match engine bindingLocation with
    | .error e => ([.makeAuthnRequest bindingLocation, .responseWrite], .internalError e)
    | .ok req =>
      let signedState : JWT MapClaims :=
        jwtSign s.serviceProvider.key "HS256" [("id", .str req.id), ("uri", .str fullURL)]
      let effects : List Effect :=
        [.makeAuthnRequest bindingLocation, .stateWrite relayRandom (.tok signedState),
         .responseWrite]
      match binding with
      | .redirectBinding => (effects, .redirectToIdP req relayRandom)
      | .postBinding => (effects, .postToIdP req relayRandom)

/-- `GetAuthorizationToken`: absent cookie yields `none`; the token is parsed
by `jwt.ParseWithClaims` — whose default parser sets no `ValidMethods`
restriction — against the service key with `AuthorizationToken` claims
validation; then the standard claims are re-validated and the audience is
compared to the service's entity ID; every failure yields `none`. -/
def GetAuthorizationToken (s : SAMLPlugin) (tokenStr : Option (JWT AuthorizationToken))
    (now : Int) : Option AuthorizationToken :=
  match tokenStr with
  | none => none
  | some tok =>
    match jwtParse none s.serviceProvider.key AuthorizationToken.validFlags now tok with
    | .error _ => none
    | .ok claims =>
      if claims.standardClaims.validFlags now ≠ noErr then none
      else if claims.standardClaims.audience ≠ s.serviceProvider.entityID then none
      else some claims

/-- Modelled from the spec: `isAuthorized` (defined outside `middleware.go`)
— the session's attribute mapping must contain each required attribute name
with the required value among its list (§4.6). -/
def isAuthorized (rule : Rule) (token : AuthorizationToken) : Bool :=
  rule.requires.all (fun p => p.2 ∈ lookupAttr token.attributes p.1)

/-- An observable step of the `ServeHTTP` dispatcher, in order of
occurrence. -/
inductive ServeEvent where
  | serveMetadata
  | forbiddenWrite
  | authorizeRun
  | requireAccountRun
  | dumpWrite
  | nextHandler (withToken : Bool)
  deriving DecidableEq

/-- How a `ServeHTTP` run terminates: with an explicit status code, or with
whatever the downstream handler returns. -/
inductive ServeOutcome where
  | status (n : Nat)
  | fromNext
  deriving DecidableEq

/-- An incoming HTTP request as the middleware reads it: the path, the full
original URL, the `RelayState` form parameter, and the client-held state and
session token. -/
structure Request where
  path : String
  fullURL : String := ""
  relayStateParam : String := ""
  clientState : ClientState := []
  clientToken : Option (JWT AuthorizationToken) := none
  deriving DecidableEq

/-- Go's `strings.HasPrefix(s, p)`, on the character lists of the two
strings. -/
def goHasStrPre (s p : String) : Bool :=
  p.data.isPrefixOf s.data

/-- The rule loop of `ServeHTTP` (its `for k, v := range s.Map` body): on a
matching prefix, a valid session is either dumped (200), forwarded
downstream with the token, or denied (403); with no valid session
`RequireAccount` runs and the loop continues — there is no early return on
that branch, so the fall-through to the downstream handler still happens. -/
def serveRules (s : SAMLPlugin) (r : Request) (now : Int) :
    List (String × Rule) → List ServeEvent × ServeOutcome
  | [] => ([.nextHandler false], .fromNext)
  | (k, rule) :: rest =>
    if goHasStrPre r.path k then
      match GetAuthorizationToken s r.clientToken now with
      | some token =>
        if isAuthorized rule token then
          if rule.dump then ([.dumpWrite], .status 200)
          else ([.nextHandler true], .fromNext)
        else ([], .status 403)
      | none =>
        let tail := serveRules s r now rest
        (.requireAccountRun :: tail.1, tail.2)
    else serveRules s r now rest

/-- `ServeHTTP`: serve metadata on the metadata path; on the ACS path compute
the possible request IDs, hand the response to the external engine's
`ParseResponse` (a parameter), write Forbidden and fall through on failure,
run `Authorize` and fall through on success; otherwise run the rule loop;
`none` models a panic inside `getPossibleRequestIDs` or `Authorize`. -/
def ServeHTTP (s : SAMLPlugin) (r : Request) (now : Int)
    (parseResponse : List String → Except String Assertion) :
    Option (List ServeEvent × ServeOutcome) :=
  if r.path = s.serviceProvider.metadataPath then some ([.serveMetadata], .status 200)
  else if r.path = s.serviceProvider.acsPath then
    match getPossibleRequestIDs s now (getStates r.clientState) with
    | none => none
    | some ids =>
      match parseResponse ids with
      | .error _ => some ([.forbiddenWrite, .nextHandler false], .fromNext)
      | .ok assertion =>
        match Authorize s r.clientState r.relayStateParam assertion now with
        | none => none
        | some _ => some ([.authorizeRun, .nextHandler false], .fromNext)
  else some (serveRules s r now s.map)

/-- Test an `Except` parse result for failure with particular error flags:
true exactly when the result is an error whose flags satisfy the
predicate. -/
def failsWith {C : Type} (p : ErrFlags → Bool) : Except ErrFlags C → Bool
  | .error f => p f
  | .ok _ => false

/-- Follows the spec's words (§4.5, claim C2), for comparison with
`getPossibleRequestIDs`: the `id` claim of every client-presented
relay-state value that verifies as a JWT signed with the service key under
the fixed algorithm, invalid or unverifiable values skipped, plus the empty
string exactly when IdP-initiated flows are allowed. -/
def specPossibleRequestIDs (s : SAMLPlugin) (now : Int) (states : List StateValue) :
    List String :=
  (states.filterMap fun v =>
    match parseStateValue s.serviceProvider.key now v with
    | .ok claims => asString (mapLookup claims "id")
    | .error _ => none)
  ++ (if s.allowIDPInitiated then [""] else [])

/-- Follows the spec's words (§3 SessionToken attributes, claim C6), for
comparison with `buildAttributes`: flatten one attribute statement into the
attribute mapping, preferring an attribute's friendly name over its
technical name as the key when a friendly name is present. -/
def specFlattenStatement (stmt : AttributeStatement) : List (String × List String) :=
  stmt.attributes.foldl
    (fun m attr =>
      attr.values.foldl
        (fun m2 v =>
          appendAttr m2 (if attr.friendlyName ≠ "" then attr.friendlyName else attr.name)
            v.value)
        m)
    []

/-- Concrete service-provider configuration used by witnesses. -/
def spW : ServiceProvider :=
  { key := 7
    entityID := "https://sp.example/metadata"
    metadataPath := "/saml/metadata"
    acsPath := "/saml/acs"
    ssoRedirectLocation := "https://idp.example/sso"
    ssoPostLocation := "https://idp.example/sso-post" }

/-- Concrete path rule used by witnesses: requires `role = admin`. -/
def ruleW : Rule := { requires := [("role", "admin")], dump := false }

/-- Concrete plugin used by witnesses. -/
def sW : SAMLPlugin :=
  { serviceProvider := spW
    allowIDPInitiated := false
    tokenMaxAge := 3600
    map := [("/app", ruleW)] }

/-- Concrete well-formed relay-state token signed with the witness key. -/
def relayTokW : JWT MapClaims :=
  jwtSign 7 "HS256" [("id", .str "id-123"), ("uri", .str "/dashboard")]

/-- Concrete client state holding one relay-state cookie. -/
def csW : ClientState := [("relayW", .tok relayTokW)]

/-- Concrete assertion used by witnesses: subject `alice`, one attribute
statement granting `role = admin`. -/
def aW : Assertion :=
  { subject := some { nameID := some { value := "alice" } }
    attributeStatements :=
      [{ attributes :=
          [{ friendlyName := "role", name := "urn:oid:2.5.4.72",
             values := [{ value := "admin" }] }] }] }

/-- The outcome of the witness run of `Authorize` on `csW`. -/
def oW : AuthorizeOutcome :=
  { response := .redirect "/dashboard"
    clientState := []
    setToken := some (jwtSign 7 "HS256" (buildSessionClaims sW aW 0)) }

/-- Concrete session token declaring algorithm HS384, correctly MAC-ed with
the witness service key. -/
def hs384TokW : JWT AuthorizationToken :=
  jwtSign 7 "HS384" { standardClaims := { audience := "https://sp.example/metadata" } }

/-- Concrete service provider with neither SSO binding location configured. -/
def spNoSSO : ServiceProvider :=
  { key := 7
    entityID := "https://sp.example/metadata"
    metadataPath := "/saml/metadata"
    acsPath := "/saml/acs" }

/-- Concrete plugin with neither SSO binding location configured. -/
def sNoSSO : SAMLPlugin := { serviceProvider := spNoSSO }

/-- Concrete request to a protected path carrying no session token. -/
def rNoTok : Request := { path := "/app/home" }

/-- Concrete relay-state token signed with the witness key whose claims lack
the `uri` string claim. -/
def noURITokW : JWT MapClaims := jwtSign 7 "HS256" [("id", .str "id-9")]

/-- Concrete relay-state token signed with the witness key with an empty
claims map (no `id` claim). -/
def noIdTokW : JWT MapClaims := jwtSign 7 "HS256" []

/-- Deleting a relay identifier removes it from the client state: a
subsequent lookup of the same identifier finds nothing. -/
theorem getState_deleteState (cs : ClientState) (relayID : String) :
    getState (deleteState cs relayID) relayID = none := by
  induction cs with
  | nil => rfl
  | cons p rest ih =>
    by_cases hk : p.1 = relayID
    · simpa [deleteState, List.filter_cons, hk] using ih
    · simpa [deleteState, List.filter_cons, hk, getState] using ih

/-- An error-flag record with the signature flag set is not the clear
record. -/
theorem errFlags_sig_ne_noErr (f : ErrFlags) :
    ({ f with signatureInvalid := true } : ErrFlags) ≠ noErr := by
  intro h
  have := congrArg ErrFlags.signatureInvalid h
  simp [noErr] at this

/-- Characterisation of a successful `jwtParseVerify`: the claims come back
unchanged, the claims flags are clear and the signature verifies. -/
theorem jwtParseVerify_ok {C : Type} [DecidableEq C] (key : Key)
    (cv : C → Int → ErrFlags) (now : Int) (tok : JWT C) (c : C) :
    jwtParseVerify key cv now tok = .ok c ↔
      (c = tok.claims ∧ cv tok.claims now = noErr ∧ sigOK key tok = true) := by
  unfold jwtParseVerify
  by_cases hs : sigOK key tok
  · simp only [hs, if_true]
    by_cases hf : cv tok.claims now = noErr
    · simp [hf, eq_comm]
    · simp [hf]
  · simp only [hs, if_false, Bool.false_eq_true]
    simp [errFlags_sig_ne_noErr (cv tok.claims now), hs]

/-- A successful `jwtParse` yields the token's claims, with clear claim
flags and a verifying signature. -/
theorem jwtParse_ok {C : Type} [DecidableEq C] (vm : Option (List String))
    (key : Key) (cv : C → Int → ErrFlags) (now : Int) (tok : JWT C) (c : C)
    (h : jwtParse vm key cv now tok = .ok c) :
    c = tok.claims ∧ cv tok.claims now = noErr ∧ sigOK key tok = true := by
  unfold jwtParse at h
  by_cases halg : tok.alg ∈ hmacAlgs
  · simp only [halg, if_true] at h
    match vm with
    | none => exact (jwtParseVerify_ok key cv now tok c).mp h
    | some vml =>
      by_cases hvm : tok.alg ∈ vml
      · simp only [hvm, if_true] at h
        exact (jwtParseVerify_ok key cv now tok c).mp h
      · simp [hvm] at h
  · simp [halg] at h

/-- C1: relay-state consumption is exactly-once.  When `Authorize` succeeds
for a nonempty relay identifier, the outcome's client state no longer holds
that identifier — the delete is part of the same response — so a second
delivery of the identical callback request, against the updated client
state, finds no relay state, fails with Forbidden and issues no session
token. -/
theorem relay_state_consumed_exactly_once (s : SAMLPlugin) (cs : ClientState)
    (relayState : String) (assertion : Assertion) (now : Int)
    (o : AuthorizeOutcome) (u : String)
    (hR : relayState ≠ "")
    (h : Authorize s cs relayState assertion now = some o)
    (hred : o.response = .redirect u) :
    getState o.clientState relayState = none ∧
    ∀ (a' : Assertion) (now' : Int),
      Authorize s o.clientState relayState a' now' =
        some { response := .forbidden, clientState := o.clientState, setToken := none } := by
  simp only [Authorize, authorizeRelayPhase, if_neg hR] at h
  cases hgs : getState cs relayState with
  | none =>
    simp only [hgs, Option.some.injEq] at h
    rw [← h] at hred
    simp at hred
  | some sv =>
    cases hp : parseStateValue s.serviceProvider.key now sv with
    | error e =>
      simp only [hgs, hp, Option.some.injEq] at h
      rw [← h] at hred
      simp at hred
    | ok claims =>
      cases hu : asString (mapLookup claims "uri") with
      | none => simp only [hgs, hp, hu] at h; exact absurd h (by simp)
      | some uri =>
        simp only [hgs, hp, hu, Option.some.injEq] at h
        have hcs : o.clientState = deleteState cs relayState := by rw [← h]
        have hdel := getState_deleteState cs relayState
        refine ⟨by rw [hcs]; exact hdel, ?_⟩
        intro a' now'
        simp only [Authorize, authorizeRelayPhase, if_neg hR, hcs, hdel]

/-- Witness for C1: a concrete successful authorization on client state
`csW` deletes the relay state, and the replay of the identical request is
Forbidden with no token issued. -/
theorem relay_state_consumed_exactly_once_witness :
    ("relayW" : String) ≠ "" ∧
    Authorize sW csW "relayW" aW 0 = some oW ∧
    oW.response = .redirect "/dashboard" ∧
    getState oW.clientState "relayW" = none ∧
    Authorize sW oW.clientState "relayW" aW 5 =
      some { response := .forbidden, clientState := oW.clientState, setToken := none } := by
  have h := relay_state_consumed_exactly_once sW csW "relayW" aW 0 oW "/dashboard"
    (by decide) (by decide) (by decide)
  exact ⟨by decide, by decide, by decide, h.1, h.2 aW 5⟩

/-- When the collection loop of `getPossibleRequestIDs` completes without a
panic, it returns exactly the `id` claims of the verifying values, in
order. -/
theorem collectRequestIDs_spec (key : Key) (now : Int) (states : List StateValue)
    (ids : List String) (h : collectRequestIDs key now states = some ids) :
    ids = states.filterMap fun v =>
      match parseStateValue key now v with
      | .ok claims => asString (mapLookup claims "id")
      | .error _ => none := by
  induction states generalizing ids with
  | nil =>
    simp only [collectRequestIDs, Option.some.injEq] at h
    simp [← h]
  | cons v rest ih =>
    cases hp : parseStateValue key now v with
    | error e =>
      simp only [collectRequestIDs, hp] at h
      simp only [List.filterMap_cons, hp]
      exact ih ids h
    | ok claims =>
      cases hid : asString (mapLookup claims "id") with
      | none =>
        simp only [collectRequestIDs, hp, hid] at h
        exact absurd h (by simp)
      | some i =>
        simp only [collectRequestIDs, hp, hid, Option.map_eq_some'] at h
        obtain ⟨t, ht, hids⟩ := h
        simp only [List.filterMap_cons, hp, hid, ← hids]
        rw [ih t ht]

/-- C2: the set of request identifiers `getPossibleRequestIDs` hands to the
assertion parser is exactly the `id` claim of every client-presented
relay-state value that verifies as an HS256 JWT under the service key
(invalid or unverifiable values skipped), followed by the empty string
exactly when `AllowIDPInitiated` is set. -/
theorem possible_request_ids_exact (s : SAMLPlugin) (now : Int)
    (states : List StateValue) (ids : List String)
    (h : getPossibleRequestIDs s now states = some ids) :
    ids = specPossibleRequestIDs s now states := by
  simp only [getPossibleRequestIDs, Option.map_eq_some'] at h
  obtain ⟨ids0, h0, hids⟩ := h
  have := collectRequestIDs_spec s.serviceProvider.key now states ids0 h0
  subst this
  simp only [specPossibleRequestIDs, ← hids]
  by_cases hidp : s.allowIDPInitiated <;> simp [hidp]

/-- Witness for C2: on a concrete state list holding one verifying token and
one garbage value, the computed identifier list matches the spec's set. -/
theorem possible_request_ids_exact_witness :
    getPossibleRequestIDs sW 0 [.tok relayTokW, .garbage "junk"] = some ["id-123"] ∧
    (["id-123"] : List String) =
      specPossibleRequestIDs sW 0 [.tok relayTokW, .garbage "junk"] := by
  refine ⟨by decide, ?_⟩
  exact possible_request_ids_exact sW 0 [.tok relayTokW, .garbage "junk"] ["id-123"] (by decide)

/-- C3: `GetAuthorizationToken` returns absent (`none`), never an error, on
every verification failure — missing cookie, a signature that does not
verify under the service key, an expired or not-yet-valid time window, or an
audience different from the service's entity ID — so an invalid session
token is treated identically to no session. -/
theorem authorization_token_absent_on_failure (s : SAMLPlugin) (now : Int) :
    GetAuthorizationToken s none now = none ∧
    (∀ tok : JWT AuthorizationToken, sigOK s.serviceProvider.key tok = false →
      GetAuthorizationToken s (some tok) now = none) ∧
    (∀ tok : JWT AuthorizationToken,
      tok.claims.standardClaims.expiresAt ≠ 0 →
      tok.claims.standardClaims.expiresAt < now →
      GetAuthorizationToken s (some tok) now = none) ∧
    (∀ tok : JWT AuthorizationToken,
      tok.claims.standardClaims.notBefore ≠ 0 →
      now < tok.claims.standardClaims.notBefore →
      GetAuthorizationToken s (some tok) now = none) ∧
    (∀ tok : JWT AuthorizationToken,
      tok.claims.standardClaims.audience ≠ s.serviceProvider.entityID →
      GetAuthorizationToken s (some tok) now = none) := by
  refine ⟨rfl, ?_, ?_, ?_, ?_⟩
  · intro tok hsig
    simp only [GetAuthorizationToken]
    cases hp : jwtParse none s.serviceProvider.key AuthorizationToken.validFlags now tok with
    | error e => rfl
    | ok claims =>
      have := (jwtParse_ok none s.serviceProvider.key AuthorizationToken.validFlags
        now tok claims hp).2.2
      rw [hsig] at this
      exact absurd this (by simp)
  · intro tok h0 hlt
    simp only [GetAuthorizationToken]
    cases hp : jwtParse none s.serviceProvider.key AuthorizationToken.validFlags now tok with
    | error e => rfl
    | ok claims =>
      have hv := (jwtParse_ok none s.serviceProvider.key AuthorizationToken.validFlags
        now tok claims hp).2.1
      have hexp := congrArg ErrFlags.expired hv
      simp only [AuthorizationToken.validFlags, StandardClaims.validFlags, noErr] at hexp
      simp [h0, hlt] at hexp
  · intro tok h0 hlt
    simp only [GetAuthorizationToken]
    cases hp : jwtParse none s.serviceProvider.key AuthorizationToken.validFlags now tok with
    | error e => rfl
    | ok claims =>
      have hv := (jwtParse_ok none s.serviceProvider.key AuthorizationToken.validFlags
        now tok claims hp).2.1
      have hnbf := congrArg ErrFlags.notValidYet hv
      simp only [AuthorizationToken.validFlags, StandardClaims.validFlags, noErr] at hnbf
      simp [h0, hlt] at hnbf
  · intro tok haud
    simp only [GetAuthorizationToken]
    cases hp : jwtParse none s.serviceProvider.key AuthorizationToken.validFlags now tok with
    | error e => rfl
    | ok claims =>
      obtain ⟨hc, hv, hs⟩ := jwtParse_ok none s.serviceProvider.key
        AuthorizationToken.validFlags now tok claims hp
      subst hc
      simp [AuthorizationToken.validFlags] at hv
      simp [hv, haud]

/-- Witness for C3: concrete failing tokens — a token signed under a
different key, an expired token, a not-yet-valid token and one with a wrong
audience — all yield absent, as does the missing cookie. -/
theorem authorization_token_absent_on_failure_witness :
    GetAuthorizationToken sW none 100 = none ∧
    GetAuthorizationToken sW (some (jwtSign 8 "HS256"
      ({ standardClaims := { audience := "https://sp.example/metadata" } }
        : AuthorizationToken))) 100 = none ∧
    GetAuthorizationToken sW (some (jwtSign 7 "HS256"
      ({ standardClaims := { audience := "https://sp.example/metadata", expiresAt := 50 } }
        : AuthorizationToken))) 100 = none ∧
    GetAuthorizationToken sW (some (jwtSign 7 "HS256"
      ({ standardClaims := { audience := "https://sp.example/metadata", notBefore := 200 } }
        : AuthorizationToken))) 100 = none ∧
    GetAuthorizationToken sW (some (jwtSign 7 "HS256"
      ({ standardClaims := { audience := "https://evil.example/" } }
        : AuthorizationToken))) 100 = none := by
  have h := authorization_token_absent_on_failure sW 100
  exact ⟨h.1,
    h.2.1 _ (by decide),
    h.2.2.1 _ (by decide) (by decide),
    h.2.2.2.1 _ (by decide) (by decide),
    h.2.2.2.2 _ (by decide)⟩

/-- Signing under a key always verifies under the same key. -/
theorem sigOK_jwtSign {C : Type} [DecidableEq C] (key : Key) (alg : String) (c : C) :
    sigOK key (jwtSign key alg c) = true := by
  simp [sigOK, jwtSign]

/-- Parsing a token freshly signed under the same key with an HMAC-family
algorithm and clear claim flags succeeds with the signed claims. -/
theorem jwtParse_sign_ok {C : Type} [DecidableEq C] (key : Key)
    (cv : C → Int → ErrFlags) (now : Int) (alg : String) (c : C)
    (halg : alg ∈ hmacAlgs) (hflags : cv c now = noErr) :
    jwtParse none key cv now (jwtSign key alg c) = .ok c := by
  simp [jwtParse, jwtParseVerify, halg, hflags, jwtSign, sigOK, mac]

/-- C4: sign/verify round trip.  The claim set `Authorize` signs with the
service key — audience the service's entity ID, window from `now` to `now`
plus the max age — verifies through `GetAuthorizationToken` with the same
key at any time inside the validity window, and yields the same claims. -/
theorem session_token_roundtrip (s : SAMLPlugin) (assertion : Assertion)
    (now nowV : Int) (h1 : now ≤ nowV) (h2 : nowV ≤ now + s.tokenMaxAge) :
    GetAuthorizationToken s
      (some (jwtSign s.serviceProvider.key "HS256" (buildSessionClaims s assertion now)))
      nowV = some (buildSessionClaims s assertion now) := by
  have hflags : (buildSessionClaims s assertion now).standardClaims.validFlags nowV = noErr := by
    simp only [buildSessionClaims, StandardClaims.validFlags, noErr]
    have he : ¬ (now + s.tokenMaxAge < nowV) := by omega
    have hi : ¬ (nowV < now) := by omega
    simp [he, hi]
  have hparse := jwtParse_sign_ok s.serviceProvider.key AuthorizationToken.validFlags nowV
    "HS256" (buildSessionClaims s assertion now) (by simp [hmacAlgs]) hflags
  simp only [GetAuthorizationToken, hparse, hflags]
  simp [buildSessionClaims]

/-- Witness for C4: a concrete claim set signed at time 0 verifies at time
100 inside the hour-long window and comes back unchanged. -/
theorem session_token_roundtrip_witness :
    (0 : Int) ≤ 100 ∧ (100 : Int) ≤ 0 + sW.tokenMaxAge ∧
    GetAuthorizationToken sW
      (some (jwtSign sW.serviceProvider.key "HS256" (buildSessionClaims sW aW 0))) 100 =
      some (buildSessionClaims sW aW 0) :=
  ⟨by decide, by decide, session_token_roundtrip sW aW 0 100 (by decide) (by decide)⟩

/-- Counterexample to C5 as stated: `GetAuthorizationToken`'s verification
does not reject a token whose header declares HS384 — a token declaring
HS384 and correctly MAC-ed under the service key is accepted and yields a
session, although its algorithm is not the fixed HMAC-SHA-256. -/
theorem token_alg_not_rejected_counterexample :
    GetAuthorizationToken sW (some hs384TokW) 0 =
      some { standardClaims := { audience := "https://sp.example/metadata" } } := by
  decide

/-- Field-wise characterisation of the clear error-flag record. -/
theorem eq_noErr_iff (f : ErrFlags) :
    f = noErr ↔ (f.malformed = false ∧ f.unverifiable = false ∧
      f.signatureInvalid = false ∧ f.expired = false ∧ f.issuedAt = false ∧
      f.notValidYet = false) := by
  cases f
  simp [noErr]

/-- Claims flags showing `expired` survive into the parse error, whatever
the signature check adds. -/
theorem jwtParseVerify_expired {C : Type} [DecidableEq C] (key : Key)
    (cv : C → Int → ErrFlags) (now : Int) (tok : JWT C)
    (h : (cv tok.claims now).expired = true) :
    failsWith (fun f => f.expired) (jwtParseVerify key cv now tok) = true := by
  unfold jwtParseVerify
  by_cases hs : sigOK key tok = true
  · simp [hs, failsWith, h, eq_noErr_iff]
  · simp only [Bool.not_eq_true] at hs
    simp [hs, failsWith, h, eq_noErr_iff]

/-- C5 (amended): a token signed under a different key fails with
`SignatureInvalid`; a token whose `expiresAt` is past fails with `Expired`
regardless of signature validity; the relay-state parsers — which fix
`ValidMethods` to HS256 — reject any other declared algorithm; but
`GetAuthorizationToken`'s parser sets no algorithm restriction and accepts
any HMAC-family token correctly signed with the service key, such as
HS384. -/
theorem token_error_classification_amended :
    (∀ (k k' : Key) (c : AuthorizationToken) (now : Int), k ≠ k' →
      failsWith (fun f => f.signatureInvalid)
        (jwtParse none k AuthorizationToken.validFlags now (jwtSign k' "HS256" c)) = true) ∧
    (∀ (k k' : Key) (c : AuthorizationToken) (now : Int),
      c.standardClaims.expiresAt ≠ 0 → c.standardClaims.expiresAt < now →
      failsWith (fun f => f.expired)
        (jwtParse none k AuthorizationToken.validFlags now (jwtSign k' "HS256" c)) = true) ∧
    (∀ (key : Key) (now : Int) (tok : JWT MapClaims), tok.alg ≠ "HS256" →
      failsWith (fun f => f.signatureInvalid || f.unverifiable)
        (jwtParse (some ["HS256"]) key mapClaimsValid now tok) = true) ∧
    (∀ (s : SAMLPlugin) (c : AuthorizationToken) (now : Int),
      c.standardClaims.audience = s.serviceProvider.entityID →
      c.standardClaims.validFlags now = noErr →
      GetAuthorizationToken s (some (jwtSign s.serviceProvider.key "HS384" c)) now = some c) := by
  refine ⟨?_, ?_, ?_, ?_⟩
  · intro k k' c now hkk
    have hne : k' ≠ k := Ne.symm hkk
    simp [jwtParse, jwtParseVerify, jwtSign, sigOK, mac, hmacAlgs, failsWith, hne,
      noErr, Prod.ext_iff]
  · intro k k' c now h0 hlt
    have hexp : (AuthorizationToken.validFlags (jwtSign k' "HS256" c).claims now).expired
        = true := by
      simp [AuthorizationToken.validFlags, StandardClaims.validFlags, jwtSign, h0, hlt]
    have hv := jwtParseVerify_expired k AuthorizationToken.validFlags now
      (jwtSign k' "HS256" c) hexp
    simpa [jwtParse, jwtSign, hmacAlgs] using hv
  · intro key now tok halg256
    simp only [jwtParse]
    by_cases halg : tok.alg ∈ hmacAlgs
    · simp [halg, halg256, failsWith]
    · simp [halg, failsWith]
  · intro s c now haud hflags
    have hparse := jwtParse_sign_ok s.serviceProvider.key AuthorizationToken.validFlags now
      "HS384" c (by simp [hmacAlgs]) hflags
    simp [GetAuthorizationToken, hparse, AuthorizationToken.validFlags, hflags, haud]

/-- Witness for the amended C5: concrete instances of each conjunct — a
wrong-key HS256 token fails with the signature flag, an expired token fails
with the expired flag, the relay parser rejects a well-signed HS384 token,
and `GetAuthorizationToken` accepts one. -/
theorem token_error_classification_amended_witness :
    failsWith (fun f => f.signatureInvalid)
      (jwtParse none 3 AuthorizationToken.validFlags 0
        (jwtSign 4 "HS256" ({} : AuthorizationToken))) = true ∧
    failsWith (fun f => f.expired)
      (jwtParse none 3 AuthorizationToken.validFlags 100
        (jwtSign 4 "HS256"
          ({ standardClaims := { expiresAt := 50 } } : AuthorizationToken))) = true ∧
    failsWith (fun f => f.signatureInvalid || f.unverifiable)
      (jwtParse (some ["HS256"]) 7 mapClaimsValid 0
        (jwtSign 7 "HS384" ([] : MapClaims))) = true ∧
    GetAuthorizationToken sW
      (some (jwtSign sW.serviceProvider.key "HS384"
        ({ standardClaims := { audience := "https://sp.example/metadata" } }
          : AuthorizationToken))) 0 =
      some { standardClaims := { audience := "https://sp.example/metadata" } } := by
  have h := token_error_classification_amended
  exact ⟨h.1 3 4 _ 0 (by decide),
    h.2.1 3 4 _ 100 (by decide) (by decide),
    h.2.2.1 7 0 _ (by decide),
    h.2.2.2 sW _ 0 (by decide) (by decide)⟩

/-- The two spellings of the attribute-key choice — the source's
`if friendlyName == "" then name else friendlyName` and the spec's
friendly-name-preferred-when-present — agree. -/
theorem keyChoice_eq (fn nm : String) :
    (if fn ≠ "" then fn else nm) = (if fn = "" then nm else fn) := by
  by_cases h : fn = "" <;> simp [h]

/-- One attribute statement flattens the same way through the source's inner
loop and through the spec's wording. -/
theorem specFlattenStatement_eq_inner (stmt : AttributeStatement) :
    specFlattenStatement stmt =
      stmt.attributes.foldl
        (fun m attr =>
          let claimName := if attr.friendlyName = "" then attr.name else attr.friendlyName
          attr.values.foldl (fun m2 v => appendAttr m2 claimName v.value) m)
        [] := by
  unfold specFlattenStatement
  simp only [keyChoice_eq]

/-- The statement loop of `buildAttributes` ignores its accumulator (the
reset), so the fold computes the flattening of the last statement, whatever
the initial value. -/
theorem buildAttributes_go (init : List (String × List String))
    (stmts : List AttributeStatement) :
    stmts.foldl
      (fun _ stmt =>
        stmt.attributes.foldl
          (fun m attr =>
            let claimName := if attr.friendlyName = "" then attr.name else attr.friendlyName
            attr.values.foldl (fun m2 v => appendAttr m2 claimName v.value) m)
          [])
      init =
      (match stmts.getLast? with
       | none => init
       | some stmt => specFlattenStatement stmt) := by
  induction stmts generalizing init with
  | nil => rfl
  | cons x xs ih =>
    rw [List.foldl_cons, ih]
    cases xs with
    | nil => simp [List.getLast?, specFlattenStatement_eq_inner]
    | cons y ys =>
      rw [List.getLast?_cons_cons]
      cases hgl : (y :: ys).getLast? with
      | none => simp at hgl
      | some z => rfl

/-- C6: the session token's attributes are the flattening of the assertion's
attribute statements with the friendly name preferred as key when present,
and — because the mapping is reset at each statement — equal to the
flattening of the last statement alone (empty when there are none). -/
theorem attributes_last_statement_wins :
    (∀ (s : SAMLPlugin) (assertion : Assertion) (now : Int),
      (buildSessionClaims s assertion now).attributes =
        buildAttributes assertion.attributeStatements) ∧
    (∀ stmts : List AttributeStatement,
      buildAttributes stmts =
        (match stmts.getLast? with
         | none => []
         | some stmt => specFlattenStatement stmt)) := by
  refine ⟨fun s assertion now => rfl, fun stmts => ?_⟩
  rw [buildAttributes]
  exact buildAttributes_go [] stmts

/-- C7: invoking `RequireAccount` on the assertion-consumer path panics (the
source's fatal configuration error) with no effects at all: no engine call,
no cookie write, no response write. -/
theorem require_account_on_acs_panics (s : SAMLPlugin)
    (path fullURL relayRandom : String)
    (engine : String → Except String AuthnRequest)
    (h : path = s.serviceProvider.acsPath) :
    RequireAccount s path fullURL relayRandom engine =
      ([], .panicked "dont wrap SAMLPlugin with RequireAccount") := by
  simp [RequireAccount, h]

/-- Witness for C7: the concrete plugin's ACS path triggers the panic with
an empty effect list. -/
theorem require_account_on_acs_panics_witness :
    ("/saml/acs" : String) = sW.serviceProvider.acsPath ∧
    RequireAccount sW "/saml/acs" "/x" "rnd" (fun _ => .ok { id := "id-1" }) =
      ([], .panicked "dont wrap SAMLPlugin with RequireAccount") :=
  ⟨by decide,
    require_account_on_acs_panics sW "/saml/acs" "/x" "rnd"
      (fun _ => .ok { id := "id-1" }) (by decide)⟩

/-- Counterexample to C8 as stated: with neither SSO binding location
configured, `RequireAccount` does not fail — it selects the post binding
with an empty location and, the engine raising no error, emits the form-post
response. -/
theorem binding_selection_counterexample :
    RequireAccount sNoSSO "/app" "/app" "rnd" (fun _ => .ok { id := "id-1" }) =
      ([.makeAuthnRequest "",
        .stateWrite "rnd" (.tok (jwtSign 7 "HS256"
          [("id", .str "id-1"), ("uri", .str "/app")])),
        .responseWrite],
       .postToIdP { id := "id-1" } "rnd") := by
  decide

/-- C8 (amended): the redirect binding's SSO location is tried first; when
it is empty the form-post binding's location is used instead; when neither
is configured the post binding is still selected, with an empty location,
and the operation fails only if the external protocol engine rejects the
request — otherwise a form-post response is produced. -/
theorem binding_selection_amended :
    (∀ (s : SAMLPlugin) (path fullURL rnd : String)
        (engine : String → Except String AuthnRequest) (req : AuthnRequest),
      path ≠ s.serviceProvider.acsPath →
      s.serviceProvider.ssoRedirectLocation ≠ "" →
      engine s.serviceProvider.ssoRedirectLocation = .ok req →
      RequireAccount s path fullURL rnd engine =
        ([.makeAuthnRequest s.serviceProvider.ssoRedirectLocation,
          .stateWrite rnd (.tok (jwtSign s.serviceProvider.key "HS256"
            [("id", .str req.id), ("uri", .str fullURL)])),
          .responseWrite],
         .redirectToIdP req rnd)) ∧
    (∀ (s : SAMLPlugin) (path fullURL rnd : String)
        (engine : String → Except String AuthnRequest) (req : AuthnRequest),
      path ≠ s.serviceProvider.acsPath →
      s.serviceProvider.ssoRedirectLocation = "" →
      engine s.serviceProvider.ssoPostLocation = .ok req →
      RequireAccount s path fullURL rnd engine =
        ([.makeAuthnRequest s.serviceProvider.ssoPostLocation,
          .stateWrite rnd (.tok (jwtSign s.serviceProvider.key "HS256"
            [("id", .str req.id), ("uri", .str fullURL)])),
          .responseWrite],
         .postToIdP req rnd)) ∧
    (∀ (s : SAMLPlugin) (path fullURL rnd : String)
        (engine : String → Except String AuthnRequest) (e : String),
      path ≠ s.serviceProvider.acsPath →
      s.serviceProvider.ssoRedirectLocation = "" →
      engine s.serviceProvider.ssoPostLocation = .error e →
      RequireAccount s path fullURL rnd engine =
        ([.makeAuthnRequest s.serviceProvider.ssoPostLocation, .responseWrite],
         .internalError e)) := by
  refine ⟨?_, ?_, ?_⟩
  · intro s path fullURL rnd engine req hpath hred heng
    simp [RequireAccount, hpath, hred, heng]
  · intro s path fullURL rnd engine req hpath hred heng
    simp [RequireAccount, hpath, hred, heng]
  · intro s path fullURL rnd engine e hpath hred heng
    simp [RequireAccount, hpath, hred, heng]

/-- Witness for the amended C8: a concrete run of each branch — redirect
binding preferred, post binding as fallback with an engine that succeeds on
the empty location, and failure when the engine errors. -/
theorem binding_selection_amended_witness :
    RequireAccount sW "/app" "/app" "rnd" (fun _ => .ok { id := "id-2" }) =
      ([.makeAuthnRequest "https://idp.example/sso",
        .stateWrite "rnd" (.tok (jwtSign 7 "HS256"
          [("id", .str "id-2"), ("uri", .str "/app")])),
        .responseWrite],
       .redirectToIdP { id := "id-2" } "rnd") ∧
    RequireAccount sNoSSO "/app" "/app" "rnd" (fun _ => .ok { id := "id-3" }) =
      ([.makeAuthnRequest "",
        .stateWrite "rnd" (.tok (jwtSign 7 "HS256"
          [("id", .str "id-3"), ("uri", .str "/app")])),
        .responseWrite],
       .postToIdP { id := "id-3" } "rnd") ∧
    RequireAccount sNoSSO "/app" "/app" "rnd" (fun _ => .error "engine refused") =
      ([.makeAuthnRequest "", .responseWrite], .internalError "engine refused") := by
  have h := binding_selection_amended
  refine ⟨?_, ?_, ?_⟩
  · have h1 := h.1 sW "/app" "/app" "rnd" (fun _ => .ok { id := "id-2" }) { id := "id-2" }
      (by decide) (by decide) (by rfl)
    exact h1
  · have h2 := h.2.1 sNoSSO "/app" "/app" "rnd" (fun _ => .ok { id := "id-3" }) { id := "id-3" }
      (by decide) (by decide) (by rfl)
    exact h2
  · have h3 := h.2.2 sNoSSO "/app" "/app" "rnd" (fun _ => .error "engine refused")
      "engine refused" (by decide) (by decide) (by rfl)
    exact h3

/-- C9 (divergence exhibited): on a request whose path matches the
configured rule and that carries no valid session, the dispatcher runs
`RequireAccount` and then still invokes the downstream handler — the
`nextHandler` event follows the `requireAccountRun` event, both in the rule
loop alone and in the full `ServeHTTP` run — where the specification
requires the request to terminate at the Authentication Initiator. -/
theorem dispatcher_falls_through_after_require_account :
    serveRules sW rNoTok 0 sW.map =
      ([.requireAccountRun, .nextHandler false], .fromNext) ∧
    ServeHTTP sW rNoTok 0 (fun _ => .error "unused") =
      some ([.requireAccountRun, .nextHandler false], .fromNext) := by
  exact ⟨by decide, by decide⟩

/-- Counterexample to C10 as stated: relay-state decoding is not total — a
value that verifies as a JWT correctly signed with the service key but whose
`id` (respectively `uri`) claim is absent makes `getPossibleRequestIDs`
(respectively `Authorize`) panic, modelled as the `none` result. -/
theorem relay_decoding_panics_counterexample :
    getPossibleRequestIDs sW 0 [.tok noIdTokW] = none ∧
    Authorize sW [("rid", .tok noURITokW)] "rid" aW 0 = none := by
  exact ⟨by decide, by decide⟩

/-- A client-presented value is harmless for the unchecked claim cast when
it either fails verification or carries a string claim under the given
key. -/
def hasStringClaim (key : Key) (now : Int) (claimKey : String) (v : StateValue) : Bool :=
  match parseStateValue key now v with
  | .ok c => (asString (mapLookup c claimKey)).isSome
  | .error _ => true

/-- The collection loop of `getPossibleRequestIDs` completes when every
verifying value carries a string `id` claim. -/
theorem collectRequestIDs_isSome (key : Key) (now : Int) (states : List StateValue)
    (h : states.all (hasStringClaim key now "id") = true) :
    (collectRequestIDs key now states).isSome = true := by
  induction states with
  | nil => rfl
  | cons v rest ih =>
    rw [List.all_cons, Bool.and_eq_true] at h
    simp only [collectRequestIDs]
    cases hp : parseStateValue key now v with
    | error e => exact ih h.2
    | ok claims =>
      have hid := h.1
      simp only [hasStringClaim, hp] at hid
      cases hcase : asString (mapLookup claims "id") with
      | none => rw [hcase] at hid; simp at hid
      | some i =>
        have hrec := ih h.2
        cases hrest : collectRequestIDs key now rest with
        | none => rw [hrest] at hrec; simp at hrec
        | some t => simp [hcase, hrest]

/-- C10 (amended): `getPossibleRequestIDs` and `Authorize` complete without
panicking on every client-presented relay-state value that fails
verification (such values are skipped, respectively answered with
Forbidden); totality at the public interface holds provided every value
that verifies under the service key carries a string `id` (respectively
`uri`) claim — a verifying value without one panics, as exhibited by the
counterexample. -/
theorem relay_decoding_total_amended :
    (∀ (s : SAMLPlugin) (now : Int) (states : List StateValue),
      states.all (hasStringClaim s.serviceProvider.key now "id") = true →
      (getPossibleRequestIDs s now states).isSome = true) ∧
    (∀ (s : SAMLPlugin) (cs : ClientState) (relayState : String)
        (assertion : Assertion) (now : Int),
      (getState cs relayState).all
        (hasStringClaim s.serviceProvider.key now "uri") = true →
      (Authorize s cs relayState assertion now).isSome = true) := by
  constructor
  · intro s now states h
    have hc := collectRequestIDs_isSome s.serviceProvider.key now states h
    simp only [getPossibleRequestIDs]
    cases hrest : collectRequestIDs s.serviceProvider.key now states with
    | none => rw [hrest] at hc; simp at hc
    | some t => rfl
  · intro s cs relayState assertion now h
    simp only [Authorize, authorizeRelayPhase]
    by_cases hR : relayState = ""
    · simp [hR]
    · simp only [if_neg hR]
      cases hgs : getState cs relayState with
      | none => simp
      | some v =>
        rw [hgs] at h
        simp only [Option.all, hasStringClaim] at h
        cases hp : parseStateValue s.serviceProvider.key now v with
        | error e => simp [hp]
        | ok claims =>
          simp only [hp] at h
          cases hu : asString (mapLookup claims "uri") with
          | none => rw [hu] at h; simp at h
          | some uri => simp [hp, hu]

/-- Witness for the amended C10: a concrete well-formed state list and a
concrete consumable relay state are processed without panic. -/
theorem relay_decoding_total_amended_witness :
    (getPossibleRequestIDs sW 0 [.tok relayTokW, .garbage "junk"]).isSome = true ∧
    (Authorize sW csW "relayW" aW 0).isSome = true := by
  have h := relay_decoding_total_amended
  exact ⟨h.1 sW 0 [.tok relayTokW, .garbage "junk"] (by decide),
    h.2 sW csW "relayW" aW 0 (by decide)⟩

end Saml
